import Mathlib

/-!
Verification of the footnote reference-resolution and cross-reference
linking engine of bible-to-markdown.

Shallow embedding of:
  * `FootnotesParser` (services/footnotes.ts): `parseFootnotes`,
    `extractVerseReferences`, `parseDataRef`, `findBibleReferences`,
    `expandBookName`, `isValidBookName`;
  * `MarkdownGenerator` (services/markdown.ts): `processFootnoteContent`,
    `extractBookFromFootnote`, `expandBookCode`.

Strings are modelled as `List Char`; machine numbers produced by the
regexes all come from `\d+` captures, so they are `Nat`; JavaScript
`parseInt` (which may produce negative values or NaN) is modelled as
`Option Int`.  The JavaScript regexes used by the code are fixed and
simple enough that the backtracking behaviour is deterministic; each one
is embedded as a hand-rolled matcher that reproduces that behaviour,
with comments identifying the original pattern.  Cheerio DOM access is
abstracted by the `NoteBlock` record, holding the exact projections of
one `.note` element that the code reads.
-/

/-! ## Character classes and basic string helpers -/

/-- JavaScript regex `\w` (ASCII word character). -/
def isWordChar (c : Char) : Bool :=
  c.isAlpha || c.isDigit || c = '_'

/-- JavaScript regex `\s`, restricted to the ASCII whitespace characters
occurring in this data (space, tab, LF, CR, VT, FF). -/
def jsIsSpace (c : Char) : Bool :=
  c = ' ' || c = '\t' || c = '\n' || c = '\r' || c.toNat = 11 || c.toNat = 12

/-- A char used as the out-of-range default; it is in no character class. -/
def nullChar : Char := Char.ofNat 0

/-- Character of `s` at index `i` (out of range: `nullChar`). -/
def charAt (s : List Char) (i : Nat) : Char :=
  s.getD i nullChar

/-- Is the character at index `i` a word character (out of range: no)? -/
def wordAt (s : List Char) (i : Nat) : Bool :=
  isWordChar (charAt s i)

/-- JavaScript regex `\b` at position `i` of `s`. -/
def boundaryAt (s : List Char) (i : Nat) : Bool :=
  (if i = 0 then false else wordAt s (i - 1)) != wordAt s i

/-- Does `pat` start at position `i` of `s`? -/
def listStartsWith : List Char → List Char → Bool
  | [], _ => true
  | _ :: _, [] => false
  | a :: as, b :: bs => a = b && listStartsWith as bs

/-- Occurrence of the literal `pat` at position `i` of `s`. -/
def occursAt (s : List Char) (i : Nat) (pat : List Char) : Bool :=
  listStartsWith pat (s.drop i)

/-- JavaScript `String.prototype.indexOf` (as `Option Nat`). -/
def jsIndexOf (s pat : List Char) : Option Nat :=
  ((List.range (s.length + 1)).filter (fun i => occursAt s i pat)).head?

/-- JavaScript `String.prototype.lastIndexOf` (as `Option Nat`). -/
def jsLastIndexOf (s pat : List Char) : Option Nat :=
  ((List.range (s.length + 1)).filter (fun i => occursAt s i pat)).getLast?

/-- JavaScript index result as a number, `-1` when absent. -/
def idxToInt : Option Nat → Int
  | none => -1
  | some n => n

/-- JavaScript `String.prototype.trim` (on char lists). -/
def jsTrim (l : List Char) : List Char :=
  ((l.dropWhile jsIsSpace).reverse.dropWhile jsIsSpace).reverse

/-- Helper for `collapseWs`: the flag records whether the previous
character belonged to a whitespace run already replaced by a space. -/
def collapseWsAux : Bool → List Char → List Char
  | _, [] => []
  | inRun, c :: t =>
    if jsIsSpace c then
      if inRun then collapseWsAux true t else ' ' :: collapseWsAux true t
    else c :: collapseWsAux false t

/-- `replace(/\s+/g, " ")`: collapse every whitespace run to one space. -/
def collapseWs (l : List Char) : List Char :=
  collapseWsAux false l

/-- `trim` on `String`. -/
def jsTrimS (s : String) : String := String.mk (jsTrim s.toList)

/-- Whitespace collapsing on `String`. -/
def collapseWsS (s : String) : String := String.mk (collapseWs s.toList)

/-- Run of digits starting at position `i`. -/
def digitRun (s : List Char) (i : Nat) : List Char :=
  (s.drop i).takeWhile Char.isDigit

/-- Run of `\s` characters starting at position `i`. -/
def spaceRun (s : List Char) (i : Nat) : List Char :=
  (s.drop i).takeWhile jsIsSpace

/-- Run of `\w` characters starting at position `i`. -/
def wordRun (s : List Char) (i : Nat) : List Char :=
  (s.drop i).takeWhile isWordChar

/-- Numeric value of a `\d+` capture (what `parseInt` returns on it). -/
def natOfDigits (l : List Char) : Nat :=
  l.foldl (fun n c => n * 10 + (c.toNat - 48)) 0

/-- The slice `s[a..b)`. -/
def sliceList (s : List Char) (a b : Nat) : List Char :=
  (s.drop a).take (b - a)

/-! ## BookCodeResolver: fixed lookup tables

These are the literal tables of `FootnotesParser.expandBookName` and
`FootnotesParser.isValidBookName`; `MarkdownGenerator.expandBookCode`
duplicates the same abbreviation table verbatim. -/

/-- The abbreviation table of `expandBookName` (and `expandBookCode`). -/
def bookMap : List (String × String) :=
  [("Mt", "Matthew"), ("Mk", "Mark"), ("Lk", "Luke"), ("Lu", "Luke"),
   ("Jn", "John"), ("Ac", "Acts"), ("Ro", "Romans"),
   ("1Co", "1 Corinthians"), ("2Co", "2 Corinthians"), ("Ga", "Galatians"),
   ("Eph", "Ephesians"), ("Php", "Philippians"), ("Col", "Colossians"),
   ("1Th", "1 Thessalonians"), ("2Th", "2 Thessalonians"),
   ("1Ti", "1 Timothy"), ("2Ti", "2 Timothy"), ("Tit", "Titus"),
   ("Phm", "Philemon"), ("Heb", "Hebrews"), ("Jas", "James"),
   ("1Pe", "1 Peter"), ("2Pe", "2 Peter"), ("1Jn", "1 John"),
   ("2Jn", "2 John"), ("3Jn", "3 John"), ("Jud", "Jude"),
   ("Re", "Revelation"), ("Ge", "Genesis"), ("Ex", "Exodus"),
   ("Le", "Leviticus"), ("Nu", "Numbers"), ("De", "Deuteronomy"),
   ("Jos", "Joshua"), ("Jdg", "Judges"), ("Ru", "Ruth"),
   ("1Sa", "1 Samuel"), ("2Sa", "2 Samuel"), ("1Ki", "1 Kings"),
   ("2Ki", "2 Kings"), ("1Ch", "1 Chronicles"), ("2Ch", "2 Chronicles"),
   ("Ezr", "Ezra"), ("Ne", "Nehemiah"), ("Es", "Esther"), ("Job", "Job"),
   ("Ps", "Psalms"), ("Pr", "Proverbs"), ("Ec", "Ecclesiastes"),
   ("So", "Song of Solomon"), ("Is", "Isaiah"), ("Jer", "Jeremiah"),
   ("La", "Lamentations"), ("Eze", "Ezekiel"), ("Da", "Daniel"),
   ("Ho", "Hosea"), ("Joe", "Joel"), ("Am", "Amos"), ("Ob", "Obadiah"),
   ("Jon", "Jonah"), ("Mic", "Micah"), ("Na", "Nahum"),
   ("Hab", "Habakkuk"), ("Zep", "Zephaniah"), ("Hag", "Haggai"),
   ("Zec", "Zechariah"), ("Mal", "Malachi")]

/-- First-match association lookup (JavaScript object property access;
the keys of `bookMap` are distinct). -/
def lookupCode : List (String × String) → String → Option String
  | [], _ => none
  | (k, v) :: t, c => if k = c then some v else lookupCode t c

/-- `expandBookName(code)`: `bookMap[code] || code`.  (All table values
are nonempty strings, so the JavaScript falsiness test on the looked-up
value coincides with lookup success.) -/
def expandBookName (code : String) : String :=
  (lookupCode bookMap code).getD code

/-- `expandBookCode` in markdown.ts: a verbatim copy of the same table. -/
def expandBookCode (code : String) : String := expandBookName code

/-- The fixed 66-name canonical set of `isValidBookName`. -/
def validBooks : List String :=
  ["Genesis", "Exodus", "Leviticus", "Numbers", "Deuteronomy",
   "Joshua", "Judges", "Ruth", "1 Samuel", "2 Samuel",
   "1 Kings", "2 Kings", "1 Chronicles", "2 Chronicles",
   "Ezra", "Nehemiah", "Esther", "Job", "Psalms",
   "Proverbs", "Ecclesiastes", "Song of Solomon",
   "Isaiah", "Jeremiah", "Lamentations", "Ezekiel", "Daniel",
   "Hosea", "Joel", "Amos", "Obadiah", "Jonah", "Micah",
   "Nahum", "Habakkuk", "Zephaniah", "Haggai", "Zechariah", "Malachi",
   "Matthew", "Mark", "Luke", "John", "Acts",
   "Romans", "1 Corinthians", "2 Corinthians", "Galatians",
   "Ephesians", "Philippians", "Colossians",
   "1 Thessalonians", "2 Thessalonians", "1 Timothy", "2 Timothy",
   "Titus", "Philemon", "Hebrews", "James",
   "1 Peter", "2 Peter", "1 John", "2 John", "3 John",
   "Jude", "Revelation"]

/-- `isValidBookName(name)`: membership in the fixed set. -/
def isValidBookName (name : String) : Bool :=
  validBooks.contains name

/-! ## Data model -/

/-- `VerseReference` of types/index.ts.  The chapter/verse numbers are
produced exclusively by `parseInt` on `\d+` captures, hence `Nat`. -/
structure VerseReference where
  book : String
  chapter : Nat
  verse : Option Nat
  endVerse : Option Nat
  display : String
deriving DecidableEq, Repr

/-- `ParsedFootnote` of types/index.ts (the `number` comes from
JavaScript `parseInt`, which can yield negative values). -/
structure ParsedFootnote where
  id : String
  number : Int
  type : String
  content : String
  verseReferences : List VerseReference
deriving DecidableEq, Repr

/-- The projections of one cheerio `.note` element that `parseFootnotes`
and `extractVerseReferences` read:
  * `numberText`: `$note.find(".noteNoteSuper").text()`;
  * `idAttr`: `$note.find(".noteNoteSuper").attr("id")`;
  * `typeText`: `$note.find(".notetype").text()`;
  * `contentText`: text of the note after removing `sup` and
    `.notetype` sub-elements;
  * `html`: `$note.html()`;
  * `text`: `$note.text()`. -/
structure NoteBlock where
  numberText : String
  idAttr : Option String
  typeText : String
  contentText : String
  html : String
  text : String
deriving DecidableEq, Repr

/-! ## The generic left-to-right global scanner

JavaScript global-regex scanning (`exec` in a loop, or `replace` with
the `g` flag): try each start position from left to right; after a
match, resume at its end. -/

/-- One scanning pass.  `tryAt s i` returns the match end position and
the captures when the pattern matches at `i`.  The fuel exceeds the
number of loop steps (the position advances by at least one per step and
scanning stops past the end), so it never runs out. -/
def scanWithAux {α : Type} (tryAt : List Char → Nat → Option (Nat × α))
    (s : List Char) : Nat → Nat → List (Nat × Nat × α)
  | 0, _ => []
  | fuel + 1, i =>
    if i > s.length then []
    else
      match tryAt s i with
      | some (en, a) =>
          (i, en, a) :: scanWithAux tryAt s fuel (if i < en then en else i + 1)
      | none => scanWithAux tryAt s fuel (i + 1)

/-- All matches of `tryAt` over `s`, left to right, non-overlapping. -/
def scanWith {α : Type} (tryAt : List Char → Nat → Option (Nat × α))
    (s : List Char) : List (Nat × Nat × α) :=
  scanWithAux tryAt s (s.length + 2) 0

/-- Splice replacements into `s`: `ms` lists `(start, stop, replacement)`
for non-overlapping matches in increasing position order (what
`String.prototype.replace` with a global regex produces). -/
def spliceAll (s : List Char) : Nat → List (Nat × Nat × List Char) → List Char
  | i, [] => s.drop i
  | i, (st, en, r) :: t => (s.drop i).take (st - i) ++ r ++ spliceAll s en t

/-! ## The explicit-tag grammar

`parseDataRef` matches `/^Bible:(\w+)\s+(\d+):(\d+)(?:-(\d+))?$/`; the
rewrite in markdown.ts step 1 matches the same grammar without the
`Bible:` prefix (`/^(\w+)\s+(\d+):(\d+)(?:-(\d+))?$/`).  All character
classes of consecutive greedy atoms are disjoint, so the regex parses
deterministically: each `+`/`*` atom takes its maximal run. -/

/-- Anchored parse of `(\w+)\s+(\d+):(\d+)(?:-(\d+))?$`, returning the
captures (book code, chapter digits, verse digits, end-verse digits). -/
def parseRefGrammar (l : List Char) :
    Option (List Char × List Char × List Char × Option (List Char)) :=
  let w := l.takeWhile isWordChar
  if w = [] then none
  else
    let r1 := l.drop w.length
    let sp := r1.takeWhile jsIsSpace
    if sp = [] then none
    else
      let r2 := r1.drop sp.length
      let ch := r2.takeWhile Char.isDigit
      if ch = [] then none
      else
        match r2.drop ch.length with
        | ':' :: r3 =>
          let v := r3.takeWhile Char.isDigit
          if v = [] then none
          else
            match r3.drop v.length with
            | [] => some (w, ch, v, none)
            | '-' :: r4 =>
              let e := r4.takeWhile Char.isDigit
              if e = [] then none
              else if r4.drop e.length = [] then some (w, ch, v, some e)
              else none
            | _ => none
        | _ => none

/-- `FootnotesParser.parseDataRef(ref, display)`. -/
def parseDataRef (ref : String) (display : String) : Option VerseReference :=
  let l := ref.toList
  if listStartsWith "Bible:".toList l then
    match parseRefGrammar (l.drop 6) with
    | some (w, ch, v, e) =>
      some { book := expandBookName (String.mk w),
             chapter := natOfDigits ch,
             verse := some (natOfDigits v),
             endVerse := e.map natOfDigits,
             display := display }
    | none => none
  else none

/-- Match of `<data ref="Bible:([^"]+)">([^<]+)<\/data>` at position `i`
(the `[^"]+` and `[^<]+` runs are maximal and must be followed by the
literal that ends them, so backtracking cannot produce other matches).
Returns the end position and the two captures. -/
def matchDataTagAt (s : List Char) (i : Nat) :
    Option (Nat × (List Char × List Char)) :=
  let opener := "<data ref=\"Bible:".toList
  if occursAt s i opener then
    let j := i + opener.length
    let cap1 := (s.drop j).takeWhile (fun c => c != '"')
    if cap1 = [] then none
    else
      let j1 := j + cap1.length
      if occursAt s j1 "\">".toList then
        let j2 := j1 + 2
        let cap2 := (s.drop j2).takeWhile (fun c => c != '<')
        if cap2 = [] then none
        else
          let j3 := j2 + cap2.length
          if occursAt s j3 "</data>".toList then
            some (j3 + 7, (cap1, cap2))
          else none
      else none
  else none

/-! ## Fallback text patterns (`findBibleReferences`)

Pattern 1: `/\b(\d?\s*\w+)\s+(\d+):(\d+)(?:-(\d+))?\b/g`
Pattern 2: `/\b(\w+)\s+(\d+):(\d+)(?:-(\d+))?\b/g`

The only live backtracking point is the optional leading digit of
pattern 1 (tried with the digit first, then without) and the optional
`-(\d+)` group (tried with first); everything else is a maximal run of
a class disjoint from what follows. -/

/-- Captures of one fallback-pattern match. -/
structure PatCaps where
  book : List Char
  ch : List Char
  v : List Char
  e : Option (List Char)
deriving DecidableEq, Repr

/-- The shared tail `\s+(\d+):(\d+)(?:-(\d+))?\b` starting at `j`;
returns the match end and the captures. -/
def tryCommonTail (s : List Char) (j : Nat) (bookCap : List Char) :
    Option (Nat × PatCaps) :=
  let sp := spaceRun s j
  if sp = [] then none
  else
    let j1 := j + sp.length
    let ch := digitRun s j1
    if ch = [] then none
    else
      let j2 := j1 + ch.length
      if charAt s j2 = ':' then
        let v := digitRun s (j2 + 1)
        if v = [] then none
        else
          let j3 := j2 + 1 + v.length
          let withGroup : Option (Nat × PatCaps) :=
            if charAt s j3 = '-' then
              let e := digitRun s (j3 + 1)
              if e = [] then none
              else
                let j4 := j3 + 1 + e.length
                if boundaryAt s j4 then
                  some (j4, ⟨bookCap, ch, v, some e⟩)
                else none
            else none
          match withGroup with
          | some r => some r
          | none =>
            if boundaryAt s j3 then some (j3, ⟨bookCap, ch, v, none⟩)
            else none
      else none

/-- Pattern 2 (`\b(\w+)\s+...`) at position `i`. -/
def tryPat2At (s : List Char) (i : Nat) : Option (Nat × PatCaps) :=
  if boundaryAt s i then
    let w := wordRun s i
    if w = [] then none
    else tryCommonTail s (i + w.length) w
  else none

/-- Pattern 1 (`\b(\d?\s*\w+)\s+...`) at position `i`: the optional
digit branch is tried first (regex greediness), then the empty one. -/
def tryPat1At (s : List Char) (i : Nat) : Option (Nat × PatCaps) :=
  if boundaryAt s i then
    let branchA : Option (Nat × PatCaps) :=
      if (charAt s i).isDigit then
        let sp := spaceRun s (i + 1)
        let w := wordRun s (i + 1 + sp.length)
        if w = [] then none
        else tryCommonTail s (i + 1 + sp.length + w.length)
               (charAt s i :: (sp ++ w))
      else none
    match branchA with
    | some r => some r
    | none =>
      let sp := spaceRun s i
      let w := wordRun s (i + sp.length)
      if w = [] then none
      else tryCommonTail s (i + sp.length + w.length) (sp ++ w)
  else none

/-- Convert the kept matches of one pattern pass into references: trim
the book capture, expand it, keep the match only if the expansion is a
canonical book name (the `while` loop of `findBibleReferences`). -/
def refsOfScan (s : List Char) (ms : List (Nat × Nat × PatCaps)) :
    List VerseReference :=
  ms.filterMap fun m =>
    let st := m.1
    let en := m.2.1
    let caps := m.2.2
    let book := expandBookName (String.mk (jsTrim caps.book))
    if isValidBookName book then
      some { book := book,
             chapter := natOfDigits caps.ch,
             verse := some (natOfDigits caps.v),
             endVerse := caps.e.map natOfDigits,
             display := String.mk (sliceList s st en) }
    else none

/-- `FootnotesParser.findBibleReferences(text)`: both patterns scan the
whole text in turn and push into one list. -/
def findBibleReferences (text : String) : List VerseReference :=
  let s := text.toList
  refsOfScan s (scanWith tryPat1At s) ++ refsOfScan s (scanWith tryPat2At s)

/-! ## `extractVerseReferences` and `parseFootnotes` -/

/-- The explicit-tag pass of `extractVerseReferences`: every
`<data ref="Bible:...">...</data>` occurrence of the note html, parsed
through `parseDataRef`; grammar failures are dropped. -/
def explicitRefsOf (html : String) : List VerseReference :=
  (scanWith matchDataTagAt html.toList).filterMap fun m =>
    parseDataRef ("Bible:" ++ String.mk m.2.2.1) (String.mk m.2.2.2)

/-- `FootnotesParser.extractVerseReferences($note)`: the text-pattern
fallback runs only when the explicit pass produced nothing. -/
def extractVerseReferences (note : NoteBlock) : List VerseReference :=
  let explicit := explicitRefsOf note.html
  if explicit.isEmpty then findBibleReferences note.text else explicit

/-- JavaScript `parseInt(s)` (radix unspecified): skip leading
whitespace, optional sign, then a maximal decimal-digit prefix — or a
hexadecimal one after `0x`/`0X`.  `none` models NaN. -/
def jsParseInt (s : String) : Option Int :=
  let l := s.toList.dropWhile jsIsSpace
  let signed : Int × List Char :=
    match l with
    | '-' :: r => (-1, r)
    | '+' :: r => (1, r)
    | _ => (1, l)
  let sign := signed.1
  let r := signed.2
  let isHexStart : Bool :=
    match r with
    | '0' :: 'x' :: _ => true
    | '0' :: 'X' :: _ => true
    | _ => false
  if isHexStart then
    let h := (r.drop 2).takeWhile (fun c =>
      c.isDigit || ('a' ≤ c && c ≤ 'f') || ('A' ≤ c && c ≤ 'F'))
    if h = [] then none
    else some (sign * (h.foldl (fun n c =>
      n * 16 + (if c.isDigit then c.toNat - 48
                else if 'a' ≤ c then c.toNat - 87 else c.toNat - 55)) 0 : Nat))
  else
    let d := r.takeWhile Char.isDigit
    if d = [] then none else some (sign * (natOfDigits d : Nat))

/-- The id fallback `note_${number || "unknown"}` (`null`, NaN and `0`
are all falsy). -/
def numFallback : Option Int → String
  | none => "unknown"
  | some n => if n = 0 then "unknown" else toString n

/-- The body of the `$(".note").each` callback of `parseFootnotes`:
builds the footnote for one note block, or drops it. -/
def mkFootnote (b : NoteBlock) : Option ParsedFootnote :=
  let numberText := jsTrimS b.numberText
  let number : Option Int :=
    if numberText = "" then none else jsParseInt numberText
  let id : String :=
    match b.idAttr with
    | some a => if a = "" then "note_" ++ numFallback number else a
    | none => "note_" ++ numFallback number
  let type := jsTrimS b.typeText
  let refs := extractVerseReferences b
  let content := jsTrimS (collapseWsS (jsTrimS b.contentText))
  match number with
  | some n =>
    if content = "" then none
    else some { id := id, number := n, type := type,
                content := content, verseReferences := refs }
  | none => none

/-- `FootnotesParser.parseFootnotes`, over the sequence of `.note`
blocks of the chapter markup: each block yields at most one footnote,
kept blocks in document order. -/
def parseFootnotes (blocks : List NoteBlock) : List ParsedFootnote :=
  blocks.filterMap mkFootnote

/-- The condition under which `parseFootnotes` keeps a note block:
its number parses (`parseInt` succeeds) and the collapsed trimmed
content is nonempty. -/
def noteKept (b : NoteBlock) : Bool :=
  (jsTrimS b.numberText ≠ "" && (jsParseInt (jsTrimS b.numberText)).isSome)
    && jsTrimS (collapseWsS (jsTrimS b.contentText)) ≠ ""

/-- The weaker condition claimed by the spec: only the number parses. -/
def noteNumberParses (b : NoteBlock) : Bool :=
  jsTrimS b.numberText ≠ "" && (jsParseInt (jsTrimS b.numberText)).isSome

/-! ## `processFootnoteContent` (markdown.ts)

Step 1: rewrite explicit `<data ref="Bible:...">...</data>` tags.
Step 2: strip remaining `<[^>]+>` markup.
Step 3: reference-driven linking with the claimed-range registry.
Step 4: same-chapter shorthand pass. -/

/-- Replacement for one data tag in step 1: on grammar success
`[[book chapter#verse|display]]` (the chapter and verse are the raw
digit captures), otherwise just the display text. -/
def dataTagReplacement (cap1 cap2 : List Char) : List Char :=
  match parseRefGrammar cap1 with
  | some (w, ch, v, _) =>
    "[[".toList ++ (expandBookCode (String.mk w)).toList ++ [' '] ++ ch
      ++ ['#'] ++ v ++ ['|'] ++ cap2 ++ "]]".toList
  | none => cap2

/-- Step 1: `processed.replace(/<data ref="Bible:([^"]+)">([^<]+)<\/data>/g, ...)`. -/
def dataRefRewrite (s : List Char) : List Char :=
  spliceAll s 0 ((scanWith matchDataTagAt s).map fun m =>
    (m.1, m.2.1, dataTagReplacement m.2.2.1 m.2.2.2))

/-- Match of `<[^>]+>` at position `i` (maximal non-`>` run, at least
one character, then `>`). -/
def matchStripAt (s : List Char) (i : Nat) : Option (Nat × Unit) :=
  if charAt s i = '<' then
    let run := (s.drop (i + 1)).takeWhile (fun c => c != '>')
    if run = [] then none
    else if charAt s (i + 1 + run.length) = '>' then
      some (i + run.length + 2, ())
    else none
  else none

/-- Step 2: `processed.replace(/<[^>]+>/g, "")`. -/
def stripTags (s : List Char) : List Char :=
  spliceAll s 0 ((scanWith matchStripAt s).map fun m => (m.1, m.2.1, []))

/-- A claimed range of the step-3 registry (`{start, end}` in the
source; `end` is a Lean keyword, so the field is `stop`). -/
structure LinkRange where
  start : Nat
  stop : Nat
deriving DecidableEq, Repr

/-- The `isAlreadyLinked` test of step 3, exactly as coded:
`(matchStart >= range.start && matchStart < range.end) ||
 (matchEnd > range.start && matchEnd <= range.end)`. -/
def isAlreadyLinked (ranges : List LinkRange) (mStart mEnd : Nat) : Bool :=
  ranges.any fun r =>
    (decide (mStart ≥ r.start) && decide (mStart < r.stop))
      || (decide (mEnd > r.start) && decide (mEnd ≤ r.stop))

/-- The range adjustment after a substitution ending (in the old text)
at `mEnd`, shifting by `adj = wikiLink.length - match.length`. -/
def adjustRange (mEnd adj : Nat) (r : LinkRange) : LinkRange :=
  if r.start ≥ mEnd then ⟨r.start + adj, r.stop + adj⟩ else r

/-- The wiki link of step 3: `[[${book} ${chapter}#${verse}|${display}]]`
(JavaScript renders an undefined verse as the text `undefined`). -/
def wikiLinkOf (ref : VerseReference) : List Char :=
  "[[".toList ++ ref.book.toList ++ [' ']
    ++ (toString ref.chapter).toList ++ ['#']
    ++ (match ref.verse with
        | some v => (toString v).toList
        | none => "undefined".toList)
    ++ ['|'] ++ ref.display.toList ++ "]]".toList

/-- First position `j ≥ i` where `\b display \b` matches (the escaped
display text is a literal). -/
def findBounded (s d : List Char) (i : Nat) : Option Nat :=
  ((List.range (s.length + 1)).filter fun j =>
    decide (i ≤ j) && boundaryAt s j && occursAt s j d
      && boundaryAt s (j + d.length)).head?

/-- The `while ((match = regex.exec(processed)))` loop of step 3 for one
reference: `wiki` is its link text, `d` its display text, `i` the regex
`lastIndex`.  Substitution splices the link in, claims the new range,
shifts the ranges that start at or after the old match end, and resumes
past the inserted link; a skipped (already linked) match just resumes
past itself.  The fuel dominates the loop variant
`processed.length - i`, which shrinks every step, so it never runs out. -/
def linkLoop (wiki d : List Char) :
    Nat → Nat → List Char → List LinkRange → List Char × List LinkRange
  | 0, _, processed, ranges => (processed, ranges)
  | fuel + 1, i, processed, ranges =>
    match findBounded processed d i with
    | none => (processed, ranges)
    | some j =>
      let mEnd := j + d.length
      if isAlreadyLinked ranges j mEnd then
        linkLoop wiki d fuel mEnd processed ranges
      else
        let processed' := processed.take j ++ wiki ++ processed.drop mEnd
        let adj := wiki.length - d.length
        let ranges' :=
          (ranges ++ [({ start := j, stop := j + wiki.length } : LinkRange)]).map
            (adjustRange mEnd adj)
        linkLoop wiki d fuel (j + wiki.length) processed' ranges'

/-- Step 3 for one reference.  (For an empty display the JavaScript
loop would rescan a zero-length match forever; the code never builds an
empty display, and the model simply leaves the state unchanged.) -/
def linkOneRef (ref : VerseReference) (st : List Char × List LinkRange) :
    List Char × List LinkRange :=
  let d := ref.display.toList
  if d.isEmpty then st
  else linkLoop (wikiLinkOf ref) d (st.1.length + 1) 0 st.1 st.2

/-- The stable length-descending order used by step 3:
`sort((a, b) => b.display.length - a.display.length)` (JavaScript sort
is stable, and insertion sort realizes the unique stable result). -/
def refLenGe (a b : VerseReference) : Prop :=
  b.display.length ≤ a.display.length

instance : DecidableRel refLenGe := fun _ _ =>
  inferInstanceAs (Decidable (_ ≤ _))

/-- `sortedRefs refs`: the references, longest display first, stable. -/
def sortedRefs (refs : List VerseReference) : List VerseReference :=
  List.insertionSort refLenGe refs

/-- Step 3 in full: fold the loop over the sorted references, starting
from an empty registry; returns the rewritten text and the registry. -/
def linkRefsResult (content : List Char) (fn : Option ParsedFootnote) :
    List Char × List LinkRange :=
  match fn with
  | some f =>
    if f.verseReferences.length > 0 then
      (sortedRefs f.verseReferences).foldl (fun st r => linkOneRef r st)
        (content, [])
    else (content, [])
  | none => (content, [])

/-- Steps 1–3 of `processFootnoteContent`. -/
def steps123 (content : List Char) (fn : Option ParsedFootnote) :
    List Char :=
  (linkRefsResult (stripTags (dataRefRewrite content)) fn).1

/-! ## Step 4: the same-chapter shorthand pass

Pattern: `/(?<!\[\[)(?<![#:])\b(\d+):(\d+)(?:-(\d+))?\b(?![^\[]*\]\])/g`,
replaced through a callback that re-derives the match position with
`indexOf` (hence the position of the *first* occurrence of the matched
text) and checks the surrounding text for wiki-link brackets. -/

/-- The negative lookahead body `[^\[]*\]\]` starting at `q`: walking
right from `q`, is a `]]` found before any `[`? -/
def closeBeforeOpen (s : List Char) : Nat → Nat → Bool
  | 0, _ => false
  | fuel + 1, k =>
    if k ≥ s.length then false
    else if charAt s k = '[' then false
    else if charAt s k = ']' && charAt s (k + 1) = ']' then true
    else closeBeforeOpen s fuel (k + 1)

/-- Match of the shorthand token pattern at position `i`; returns the
end position and the raw digit captures (chapter, verse, end verse). -/
def tryShorthandAt (s : List Char) (i : Nat) :
    Option (Nat × (List Char × List Char × Option (List Char))) :=
  if i ≥ 2 && occursAt s (i - 2) "[[".toList then none
  else if i ≥ 1 && (charAt s (i - 1) = '#' || charAt s (i - 1) = ':') then none
  else if boundaryAt s i then
    let ch := digitRun s i
    if ch = [] then none
    else
      let j1 := i + ch.length
      if charAt s j1 = ':' then
        let v := digitRun s (j1 + 1)
        if v = [] then none
        else
          let j2 := j1 + 1 + v.length
          let withGroup : Option (Nat × (List Char × List Char × Option (List Char))) :=
            if charAt s j2 = '-' then
              let e := digitRun s (j2 + 1)
              if e = [] then none
              else
                let j3 := j2 + 1 + e.length
                if boundaryAt s j3 && !closeBeforeOpen s (s.length + 1) j3 then
                  some (j3, (ch, v, some e))
                else none
            else none
          match withGroup with
          | some r => some r
          | none =>
            if boundaryAt s j2 && !closeBeforeOpen s (s.length + 1) j2 then
              some (j2, (ch, v, none))
            else none
      else none
  else none

/-- The replacement callback of step 4.  It looks the matched text up
with `indexOf` (first occurrence, not necessarily the match position)
in the *pre-replacement* string, splits there, and leaves the token
alone when the bracket heuristics deem it inside a wiki link. -/
def shorthandCallback (book : String) (s : List Char) (st en : Nat)
    (ch v : List Char) (e : Option (List Char)) : List Char :=
  let t := sliceList s st en
  let idx := (jsIndexOf s t).getD 0
  let before := s.take idx
  let after := s.drop (idx + t.length)
  let cond1 :=
    idxToInt (jsLastIndexOf before "[[".toList)
      > idxToInt (jsLastIndexOf before "]]".toList)
  let cond2 :=
    idxToInt (jsIndexOf after "]]".toList)
      < idxToInt (jsIndexOf after "[[".toList)
  if cond1 || cond2 then t
  else
    "[[".toList ++ book.toList ++ [' '] ++ ch ++ ['#'] ++ v ++ ['|']
      ++ ch ++ [':'] ++ v
      ++ (match e with | some ev => '-' :: ev | none => [])
      ++ "]]".toList

/-- Step 4 in full: global replace of the shorthand pattern. -/
def shorthandPass (book : String) (s : List Char) : List Char :=
  spliceAll s 0 ((scanWith tryShorthandAt s).map fun m =>
    (m.1, m.2.1, shorthandCallback book s m.1 m.2.1 m.2.2.1 m.2.2.2.1 m.2.2.2.2))

/-- Match of `note_([A-Za-z]+)_\d+_\d+` at position `i` of an id,
returning the captured letters. -/
def tryNotePatAt (s : List Char) (i : Nat) : Option (List Char) :=
  if occursAt s i "note_".toList then
    let w := (s.drop (i + 5)).takeWhile Char.isAlpha
    if w = [] then none
    else
      let j := i + 5 + w.length
      if charAt s j = '_' then
        let d1 := digitRun s (j + 1)
        if d1 = [] then none
        else
          let j2 := j + 1 + d1.length
          if charAt s j2 = '_' then
            let d2 := digitRun s (j2 + 1)
            if d2 = [] then none else some w
          else none
      else none
  else none

/-- `MarkdownGenerator.extractBookFromFootnote(footnote?)`: first match
of `/note_([A-Za-z]+)_\d+_\d+/` anywhere in the footnote id. -/
def extractBookFromFootnote (fn : Option ParsedFootnote) : Option String :=
  match fn with
  | none => none
  | some f =>
    let s := f.id.toList
    (((List.range (s.length + 1)).filterMap fun i => tryNotePatAt s i).head?).map
      String.mk

/-- `MarkdownGenerator.processFootnoteContent(content, footnote?)`. -/
def processFootnoteContent (content : String) (fn : Option ParsedFootnote) :
    String :=
  let p := steps123 content.toList fn
  match extractBookFromFootnote fn with
  | some book => String.mk (shorthandPass book p)
  | none => String.mk p

/-! ## Concrete inputs used by the claim instances -/

/-- A reference with the bare display `3:16`. -/
def refC2a : VerseReference :=
  { book := "John", chapter := 3, verse := some 16, endVerse := none,
    display := "3:16" }

/-- A reference with the fuller display `John 3:16`. -/
def refC2b : VerseReference :=
  { book := "John", chapter := 3, verse := some 16, endVerse := none,
    display := "John 3:16" }

/-- A footnote carrying both overlapping references. -/
def fnC2 : ParsedFootnote :=
  { id := "note_1", number := 1, type := "sn",
    content := "See John 3:16.", verseReferences := [refC2a, refC2b] }

/-- A note block whose number parses but whose content is whitespace. -/
def blockC3 : NoteBlock :=
  { numberText := "1", idAttr := some "note_1", typeText := "tn",
    contentText := "   ", html := "", text := "" }

/-- A note block with the negative number text `-3`. -/
def blockC4neg : NoteBlock :=
  { numberText := "-3", idAttr := none, typeText := "",
    contentText := "x", html := "", text := "" }

/-- A note block whose number is the non-numeric dash. -/
def blockC4dash : NoteBlock :=
  { numberText := "—", idAttr := none, typeText := "sn",
    contentText := "x", html := "", text := "" }

/-- A well-formed note block. -/
def blockC4a : NoteBlock :=
  { numberText := "1", idAttr := some "note_1", typeText := "tn",
    contentText := "first", html := "", text := "first" }

/-- Another well-formed note block. -/
def blockC4b : NoteBlock :=
  { numberText := "2", idAttr := some "note_2", typeText := "tn",
    contentText := "second", html := "", text := "second" }

/-- A note whose only explicit tag fails the reference grammar while its
plain text carries a citation-shaped pattern. -/
def noteC5x : NoteBlock :=
  { numberText := "1", idAttr := some "note_1", typeText := "tn",
    contentText := "c",
    html := "<data ref=\"Bible:junk\">x</data> Mt 5:3",
    text := "x Mt 5:3" }

/-- A note with one well-formed explicit tag. -/
def noteC5w : NoteBlock :=
  { numberText := "1", idAttr := some "note_1", typeText := "sn",
    contentText := "c",
    html := "<data ref=\"Bible:Mt 5:3\">Mt 5:3</data>",
    text := "Mt 5:3" }

/-- Text carrying two citations, both matched by both fallback patterns. -/
def textC6 : String := "Mt 5:3 Lu 6:20"

/-- A footnote whose id encodes the originating book John. -/
def fnC7 : ParsedFootnote :=
  { id := "note_John_3_1", number := 1, type := "tn",
    content := "See 3:0.", verseReferences := [] }

/-- A note with an explicit tag using the unknown code `Xy`. -/
def noteC8 : NoteBlock :=
  { numberText := "1", idAttr := some "note_1", typeText := "tn",
    contentText := "c",
    html := "<data ref=\"Bible:Xy 1:2\">Xy 1:2</data>",
    text := "Xy 1:2" }

/-- A footnote with book-encoding id and bare shorthand content. -/
def fnC9 : ParsedFootnote :=
  { id := "note_John_3_1", number := 1, type := "tn",
    content := "See 1:4.", verseReferences := [] }

/-- The same footnote with a plain id, so no book hint is derivable. -/
def fnC9n : ParsedFootnote :=
  { id := "note_1", number := 1, type := "tn",
    content := "See 1:4.", verseReferences := [] }

/-- Two claimed ranges do not overlap. -/
def rangesDisjoint (r₁ r₂ : LinkRange) : Prop :=
  r₁.stop ≤ r₂.start ∨ r₂.stop ≤ r₁.start

/-- The candidate range `[mStart, mEnd)` intersects the claimed range `r`. -/
def overlapsRange (mStart mEnd : Nat) (r : LinkRange) : Prop :=
  mStart < r.stop ∧ r.start < mEnd

/-- The registry invariant carried through the step-3 loop for the
display length `d`. -/
def goodState (d : Nat) (ranges : List LinkRange) : Prop :=
  List.Pairwise rangesDisjoint ranges ∧ ∀ r ∈ ranges, d ≤ r.stop - r.start

instance : IsTotal VerseReference refLenGe :=
  ⟨fun a b => (Nat.le_total b.display.length a.display.length).elim Or.inl Or.inr⟩

instance : IsTrans VerseReference refLenGe :=
  ⟨fun _ _ _ hab hbc => Nat.le_trans hbc hab⟩

/-! ## Shared lemmas -/

theorem toList_length (s : String) : s.toList.length = s.length := rfl

theorem adjustRange_start (mEnd adj : Nat) (r : LinkRange) :
    (adjustRange mEnd adj r).start
      = if r.start ≥ mEnd then r.start + adj else r.start := by
  unfold adjustRange
  split <;> simp_all

theorem adjustRange_stop (mEnd adj : Nat) (r : LinkRange) :
    (adjustRange mEnd adj r).stop
      = if r.start ≥ mEnd then r.stop + adj else r.stop := by
  unfold adjustRange
  split <;> simp_all

theorem adjustRange_len (mEnd adj : Nat) (r : LinkRange) :
    (adjustRange mEnd adj r).stop - (adjustRange mEnd adj r).start
      = r.stop - r.start := by
  rw [adjustRange_start, adjustRange_stop]
  split <;> omega

/-- The `isAlreadyLinked` test detects exactly the intersecting
candidates, provided no claimed range is short enough to fit strictly
inside the candidate (the only intersection shape the coded test
misses). -/
theorem isAlreadyLinked_eq_true_iff (d : Nat) (ranges : List LinkRange)
    (mStart : Nat) (hd : 0 < d)
    (hlen : ∀ r ∈ ranges, d ≤ (r.stop - r.start) + 1) :
    (isAlreadyLinked ranges mStart (mStart + d) = true
      ↔ ∃ r ∈ ranges, overlapsRange mStart (mStart + d) r) := by
  unfold isAlreadyLinked overlapsRange
  rw [List.any_eq_true]
  constructor
  · rintro ⟨r, hr, hcond⟩
    refine ⟨r, hr, ?_⟩
    simp only [Bool.or_eq_true, Bool.and_eq_true, decide_eq_true_eq] at hcond
    omega
  · rintro ⟨r, hr, hcond⟩
    refine ⟨r, hr, ?_⟩
    have := hlen r hr
    simp only [Bool.or_eq_true, Bool.and_eq_true, decide_eq_true_eq]
    omega

/-- A substitution whose candidate range intersects no claimed range
keeps the registry pairwise disjoint and keeps every range at least as
long as the display (`w` is the inserted link length, `w ≥ d`). -/
theorem subst_preserves (ranges : List LinkRange) (j d w : Nat)
    (hd : 0 < d) (hw : d ≤ w)
    (hP : List.Pairwise rangesDisjoint ranges)
    (hlen : ∀ r ∈ ranges, d ≤ r.stop - r.start)
    (hno : ∀ r ∈ ranges, ¬ overlapsRange j (j + d) r) :
    List.Pairwise rangesDisjoint
        ((ranges ++ [({ start := j, stop := j + w } : LinkRange)]).map
          (adjustRange (j + d) (w - d)))
      ∧ ∀ r ∈ (ranges ++ [({ start := j, stop := j + w } : LinkRange)]).map
          (adjustRange (j + d) (w - d)), d ≤ r.stop - r.start := by
  constructor
  · rw [List.map_append, List.pairwise_append]
    refine ⟨?_, ?_, ?_⟩
    · rw [List.pairwise_map]
      refine hP.imp_of_mem ?_
      intro a b ha hb hab
      have hna := hno a ha
      have hnb := hno b hb
      have hla := hlen a ha
      have hlb := hlen b hb
      unfold rangesDisjoint overlapsRange at *
      rw [adjustRange_start, adjustRange_stop, adjustRange_start,
        adjustRange_stop]
      split <;> split <;> omega
    · simp [List.pairwise_map]
    · intro a ha b hb
      simp only [List.map_cons, List.map_nil, List.mem_singleton] at hb
      rw [List.mem_map] at ha
      obtain ⟨a0, ha0, rfl⟩ := ha
      have hna := hno a0 ha0
      have hla := hlen a0 ha0
      subst hb
      unfold rangesDisjoint overlapsRange at *
      rw [adjustRange_start, adjustRange_stop, adjustRange_start,
        adjustRange_stop]
      simp only []
      split <;> split <;> omega
  · intro r hr
    rw [List.mem_map] at hr
    obtain ⟨r0, hr0, rfl⟩ := hr
    rw [List.mem_append] at hr0
    rcases hr0 with hr0 | hr0
    · have := hlen r0 hr0
      rw [adjustRange_len]
      omega
    · simp only [List.mem_singleton] at hr0
      subst hr0
      rw [adjustRange_len]
      show d ≤ j + w - j
      omega

theorem linkLoop_good (wiki d : List Char) (hd : d ≠ [])
    (hw : d.length ≤ wiki.length) :
    ∀ (fuel i : Nat) (processed : List Char) (ranges : List LinkRange),
      goodState d.length ranges →
      goodState d.length (linkLoop wiki d fuel i processed ranges).2 := by
  intro fuel
  induction fuel with
  | zero => intro i processed ranges h; simpa [linkLoop] using h
  | succ fuel ih =>
    intro i processed ranges h
    rw [linkLoop]
    cases hfind : findBounded processed d i with
    | none => exact h
    | some j =>
      simp only []
      by_cases hlink : isAlreadyLinked ranges j (j + d.length) = true
      · rw [if_pos hlink]
        exact ih _ _ _ h
      · rw [if_neg hlink]
        apply ih
        have hd0 : 0 < d.length := List.length_pos.mpr hd
        have hiff := isAlreadyLinked_eq_true_iff d.length ranges j hd0
          (fun r hr => by have := h.2 r hr; omega)
        have hno : ∀ r ∈ ranges, ¬ overlapsRange j (j + d.length) r := by
          intro r hr hover
          exact hlink (hiff.mpr ⟨r, hr, hover⟩)
        have := subst_preserves ranges j d.length wiki.length hd0 hw h.1 h.2 hno
        exact ⟨this.1, this.2⟩

/-- The step-3 sort really is longest-display-first. -/
theorem sortedRefs_pairwise (l : List VerseReference) :
    List.Pairwise refLenGe (sortedRefs l) :=
  List.sorted_insertionSort refLenGe l

/-- Folding step 3 over a longest-first reference list keeps the
registry pairwise disjoint, provided every already-claimed range is at
least as long as every remaining display. -/
theorem linkFold_good :
    ∀ (refs : List VerseReference) (st : List Char × List LinkRange),
      List.Pairwise refLenGe refs →
      List.Pairwise rangesDisjoint st.2 →
      (∀ r ∈ st.2, ∀ ref ∈ refs, ref.display.length ≤ r.stop - r.start) →
      List.Pairwise rangesDisjoint
        (refs.foldl (fun st r => linkOneRef r st) st).2 := by
  intro refs
  induction refs with
  | nil => intro st _ hP _; simpa using hP
  | cons ref t ih =>
    intro st hsorted hP hbound
    rw [List.foldl_cons]
    by_cases hempty : ref.display.toList.isEmpty
    · have hst : linkOneRef ref st = st := by
        unfold linkOneRef
        rw [if_pos hempty]
      rw [hst]
      refine ih st (List.Pairwise.of_cons hsorted) hP ?_
      intro r hr ref' href'
      exact hbound r hr ref' (List.mem_cons_of_mem _ href')
    · have hd : ref.display.toList ≠ [] := by
        simpa [List.isEmpty_iff] using hempty
      have hw : ref.display.toList.length ≤ (wikiLinkOf ref).length := by
        unfold wikiLinkOf
        simp [List.length_append]
        omega
      have hgood : goodState ref.display.toList.length st.2 := by
        refine ⟨hP, ?_⟩
        intro r hr
        have := hbound r hr ref (List.mem_cons_self ref t)
        rwa [toList_length]
      have hafter := linkLoop_good (wikiLinkOf ref) ref.display.toList hd hw
        (st.1.length + 1) 0 st.1 st.2 hgood
      have hst : linkOneRef ref st
          = linkLoop (wikiLinkOf ref) ref.display.toList
              (st.1.length + 1) 0 st.1 st.2 := by
        unfold linkOneRef
        rw [if_neg hempty]
      refine ih _ (List.Pairwise.of_cons hsorted) (hst ▸ hafter.1) ?_
      intro r hr ref' href'
      have hle : ref'.display.length ≤ ref.display.length :=
        (List.pairwise_cons.mp hsorted).1 ref' href'
      have hlen2 := hafter.2 r (hst ▸ hr)
      rw [toList_length] at hlen2
      omega

/-- C1.  In step 3 of the content rewrite, the `isAlreadyLinked` test
accepts a candidate exactly when its range intersects a claimed range
(first conjunct: over the states the loop can reach, where no claimed
range is shorter than the display being placed), and the registry of
claimed ranges produced by the whole reference-driven pass is pairwise
non-overlapping (second conjunct): no two links of one call claim
overlapping text. -/
theorem spec_c1 :
    (∀ (d : List Char) (ranges : List LinkRange) (mStart : Nat),
        d ≠ [] →
        (∀ r ∈ ranges, d.length ≤ (r.stop - r.start) + 1) →
        (isAlreadyLinked ranges mStart (mStart + d.length) = true
          ↔ ∃ r ∈ ranges, overlapsRange mStart (mStart + d.length) r))
    ∧ ∀ (content : List Char) (fn : Option ParsedFootnote),
        List.Pairwise rangesDisjoint (linkRefsResult content fn).2 := by
  constructor
  · intro d ranges mStart hd hlen
    exact isAlreadyLinked_eq_true_iff d.length ranges mStart
      (List.length_pos.mpr hd) hlen
  · intro content fn
    cases fn with
    | none => simp [linkRefsResult]
    | some f =>
      by_cases hrefs : f.verseReferences.length > 0
      · have heq : linkRefsResult content (some f)
            = (sortedRefs f.verseReferences).foldl
                (fun st r => linkOneRef r st) (content, []) := by
          simp [linkRefsResult, hrefs]
        rw [heq]
        refine linkFold_good (sortedRefs f.verseReferences) (content, [])
          (sortedRefs_pairwise _) (by simp) ?_
        intro r hr
        simp at hr
      · have heq : linkRefsResult content (some f) = (content, []) := by
          simp [linkRefsResult, hrefs]
        rw [heq]
        simp

/-- Closed instance of `spec_c1`: the overlap test evaluated against a
concrete registry, and a concrete run of the reference pass. -/
theorem spec_c1_witness :
    (isAlreadyLinked [({ start := 0, stop := 5 } : LinkRange)] 7
        (7 + (['a'] : List Char).length) = true
      ↔ ∃ r ∈ [({ start := 0, stop := 5 } : LinkRange)],
          overlapsRange 7 (7 + (['a'] : List Char).length) r)
    ∧ List.Pairwise rangesDisjoint (linkRefsResult "ab".toList none).2 :=
  ⟨spec_c1.1 ['a'] [{ start := 0, stop := 5 }] 7 (by decide) (by decide),
   spec_c1.2 "ab".toList none⟩

/-- C2.  With references displaying `3:16` and `John 3:16` and content
containing `John 3:16`, step 3 sorts longest-display-first and produces
exactly one link spanning the full phrase; the embedded `3:16` inside
the produced link is skipped by the registry, so no second link
appears. -/
theorem spec_c2 :
    sortedRefs [refC2a, refC2b] = [refC2b, refC2a]
    ∧ processFootnoteContent "See John 3:16." (some fnC2)
        = "See [[John 3#16|John 3:16]]." := by
  constructor
  · decide
  · decide

/-- `parseFootnotes` keeps a note block exactly under `noteKept`. -/
theorem mkFootnote_isSome_eq (b : NoteBlock) :
    (mkFootnote b).isSome = noteKept b := by
  unfold mkFootnote noteKept
  by_cases h1 : jsTrimS b.numberText = ""
  · simp [h1]
  · cases h2 : jsParseInt (jsTrimS b.numberText) with
    | none => simp [h1, h2]
    | some n =>
      by_cases h3 : jsTrimS (collapseWsS (jsTrimS b.contentText)) = ""
      · simp [h1, h2, h3]
      · simp [h1, h2, h3]

/-- C3 (amended).  `parseFootnotes` is total by construction and keeps
at most one footnote per note block; the count equals the number of
blocks exactly when every block is kept, which requires a parseable
number *and* nonempty collapsed content. -/
theorem spec_c3 (blocks : List NoteBlock) :
    (parseFootnotes blocks).length ≤ blocks.length
    ∧ ((parseFootnotes blocks).length = blocks.length
        ↔ ∀ b ∈ blocks, noteKept b = true) := by
  induction blocks with
  | nil => simp [parseFootnotes]
  | cons b t ih =>
    obtain ⟨ih1, ih2⟩ := ih
    have hb := mkFootnote_isSome_eq b
    have hsplit : parseFootnotes (b :: t)
        = (mkFootnote b).toList ++ parseFootnotes t := by
      cases hmk : mkFootnote b <;>
        simp [parseFootnotes, List.filterMap_cons, hmk]
    rw [hsplit]
    cases hmk : mkFootnote b with
    | none =>
      have hkept : noteKept b = false := by
        rw [← hb, hmk]
        rfl
      simp only [hmk, Option.toList_none, List.nil_append, List.length_cons]
      refine ⟨by omega, ?_, ?_⟩
      · intro h
        omega
      · intro hall
        have := hall b (List.mem_cons_self b t)
        rw [hkept] at this
        cases this
    | some f =>
      have hkept : noteKept b = true := by
        rw [← hb, hmk]
        rfl
      simp only [hmk, Option.toList_some, List.singleton_append,
        List.length_cons]
      refine ⟨by omega, ?_, ?_⟩
      · intro h b' hb'
        rcases List.mem_cons.mp hb' with rfl | hb'
        · exact hkept
        · exact (ih2.mp (by omega)) b' hb'
      · intro hall
        have : (parseFootnotes t).length = t.length :=
          ih2.mpr fun b' hb' => hall b' (List.mem_cons_of_mem _ hb')
        omega

/-- Closed instance of `spec_c3` at a one-block input. -/
theorem spec_c3_witness :
    (parseFootnotes [blockC3]).length ≤ ([blockC3] : List NoteBlock).length
    ∧ ((parseFootnotes [blockC3]).length = ([blockC3] : List NoteBlock).length
        ↔ ∀ b ∈ ([blockC3] : List NoteBlock), noteKept b = true) :=
  spec_c3 [blockC3]

/-- C3 counterexample: a block with the parseable number `1` but
whitespace-only content is dropped, so the count falls short of the
block count although every number parses — refuting equality iff every
block has a parseable number. -/
theorem spec_c3_counterexample :
    ¬ (((parseFootnotes [blockC3]).length = ([blockC3] : List NoteBlock).length)
      ↔ ∀ b ∈ ([blockC3] : List NoteBlock), noteNumberParses b = true) := by
  decide

/-- C4 (amended).  A note block yields a footnote exactly when its
number text parses under `parseInt` (any integer, negative included —
the code never checks the sign) and its collapsed trimmed content is
nonempty; a dropped block contributes nothing and the scan of the other
blocks is unaffected. -/
theorem spec_c4 :
    (∀ b : NoteBlock, (mkFootnote b).isSome = noteKept b)
    ∧ ∀ (bs₁ bs₂ : List NoteBlock) (b : NoteBlock),
        mkFootnote b = none →
        parseFootnotes (bs₁ ++ b :: bs₂) = parseFootnotes (bs₁ ++ bs₂) := by
  refine ⟨mkFootnote_isSome_eq, ?_⟩
  intro bs₁ bs₂ b h
  simp [parseFootnotes, List.filterMap_append, List.filterMap_cons, h]

/-- Closed instance of `spec_c4`: the dash-numbered block of Scenario D
is dropped without disturbing its well-formed neighbours. -/
theorem spec_c4_witness :
    (mkFootnote blockC4dash).isSome = noteKept blockC4dash
    ∧ parseFootnotes ([blockC4a] ++ blockC4dash :: [blockC4b])
        = parseFootnotes ([blockC4a] ++ [blockC4b]) :=
  ⟨spec_c4.1 blockC4dash, spec_c4.2 [blockC4a] [blockC4b] blockC4dash rfl⟩

/-- C4 counterexample: the number text `-3` parses to the negative
integer `-3` and the footnote *is* constructed, refuting the claim that
construction requires a non-negative number. -/
theorem spec_c4_counterexample :
    parseFootnotes [blockC4neg]
      = [{ id := "note_-3", number := -3, type := "", content := "x",
           verseReferences := [] }]
    ∧ ((-3 : Int) < 0) :=
  ⟨rfl, by decide⟩

/-- C5 (amended).  The references of each note come from exactly one
strategy, never a mix: the whole list is the explicit-tag extraction
when that yields at least one reference, and otherwise — including when
explicit tags exist but all fail the grammar — it is the text-pattern
fallback. -/
theorem spec_c5 (note : NoteBlock) :
    (explicitRefsOf note.html ≠ []
        ∧ extractVerseReferences note = explicitRefsOf note.html)
    ∨ (explicitRefsOf note.html = []
        ∧ extractVerseReferences note = findBibleReferences note.text) := by
  unfold extractVerseReferences
  by_cases h : (explicitRefsOf note.html).isEmpty
  · right
    refine ⟨List.isEmpty_iff.mp h, ?_⟩
    simp [h]
  · left
    constructor
    · intro hnil
      rw [hnil] at h
      exact h rfl
    · simp [h]

/-- Closed instance of `spec_c5` on a note with one well-formed tag. -/
theorem spec_c5_witness :
    (explicitRefsOf noteC5w.html ≠ []
        ∧ extractVerseReferences noteC5w = explicitRefsOf noteC5w.html)
    ∨ (explicitRefsOf noteC5w.html = []
        ∧ extractVerseReferences noteC5w = findBibleReferences noteC5w.text) :=
  spec_c5 noteC5w

/-- C5 counterexample: the note carries an explicit tag (the data-tag
scan is nonempty), yet the tag fails the reference grammar, so the
explicit pass yields nothing and the fallback populates the references
— refuting the §3 wording that explicit-tag extraction is used whenever
any explicit tags exist. -/
theorem spec_c5_counterexample :
    scanWith matchDataTagAt noteC5x.html.toList ≠ []
    ∧ explicitRefsOf noteC5x.html = []
    ∧ extractVerseReferences noteC5x = findBibleReferences noteC5x.text
    ∧ findBibleReferences noteC5x.text ≠ [] :=
  ⟨by decide, by decide, rfl, by decide⟩

/-- Every match a scanning pass emits starts at or after the position
the pass was resumed from. -/
theorem scanWithAux_pos_le {α : Type}
    (tryAt : List Char → Nat → Option (Nat × α)) (s : List Char) :
    ∀ (fuel i : Nat) (m : Nat × Nat × α),
      m ∈ scanWithAux tryAt s fuel i → i ≤ m.1 := by
  intro fuel
  induction fuel with
  | zero => intro i m hm; simp [scanWithAux] at hm
  | succ fuel ih =>
    intro i m hm
    rw [scanWithAux] at hm
    by_cases hi : i > s.length
    · rw [if_pos hi] at hm
      simp at hm
    · rw [if_neg hi] at hm
      cases htry : tryAt s i with
      | none =>
        rw [htry] at hm
        have := ih (i + 1) m hm
        omega
      | some r =>
        obtain ⟨en, a⟩ := r
        rw [htry] at hm
        rcases List.mem_cons.mp hm with rfl | hm2
        · exact Nat.le_refl _
        · have := ih _ m hm2
          by_cases hen : i < en
          · rw [if_pos hen] at this
            omega
          · rw [if_neg hen] at this
            omega

/-- The matches of one scanning pass come in strictly increasing
position order. -/
theorem scanWithAux_chain {α : Type}
    (tryAt : List Char → Nat → Option (Nat × α)) (s : List Char) :
    ∀ (fuel i : Nat),
      List.Chain' (fun a b => a.1 < b.1) (scanWithAux tryAt s fuel i) := by
  intro fuel
  induction fuel with
  | zero => intro i; simp [scanWithAux]
  | succ fuel ih =>
    intro i
    rw [scanWithAux]
    by_cases hi : i > s.length
    · rw [if_pos hi]
      simp
    · rw [if_neg hi]
      cases htry : tryAt s i with
      | none => exact ih (i + 1)
      | some r =>
        obtain ⟨en, a⟩ := r
        refine (List.chain'_cons').mpr ⟨?_, ih _⟩
        intro y hy
        have := scanWithAux_pos_le tryAt s fuel _ y (List.mem_of_mem_head? hy)
        show i < y.1
        by_cases hen : i < en
        · rw [if_pos hen] at this
          omega
        · rw [if_neg hen] at this
          omega

/-- C6 (amended).  Within each of the two fallback pattern passes the
matches appear in strictly increasing (left-to-right) position order,
and `findBibleReferences` is made of the kept records of the first pass followed by
those of the second — so duplicates across the two passes are all kept
and the combined list need not be ordered by position of first
appearance. -/
theorem spec_c6 (text : String) :
    List.Chain' (fun a b => a.1 < b.1) (scanWith tryPat1At text.toList)
    ∧ List.Chain' (fun a b => a.1 < b.1) (scanWith tryPat2At text.toList)
    ∧ findBibleReferences text
        = refsOfScan text.toList (scanWith tryPat1At text.toList)
          ++ refsOfScan text.toList (scanWith tryPat2At text.toList) :=
  ⟨scanWithAux_chain tryPat1At text.toList _ 0,
   scanWithAux_chain tryPat2At text.toList _ 0, rfl⟩

/-- Closed instance of `spec_c6` at the two-citation text. -/
theorem spec_c6_witness :
    List.Chain' (fun a b => a.1 < b.1) (scanWith tryPat1At textC6.toList)
    ∧ List.Chain' (fun a b => a.1 < b.1) (scanWith tryPat2At textC6.toList)
    ∧ findBibleReferences textC6
        = refsOfScan textC6.toList (scanWith tryPat1At textC6.toList)
          ++ refsOfScan textC6.toList (scanWith tryPat2At textC6.toList) :=
  spec_c6 textC6

/-- C6 counterexample: on `Mt 5:3 Lu 6:20` the fallback returns four
records (each citation twice, once per pattern), and the sequence of
first-appearance positions of the returned displays is 0, 6, 0, 7 — not
left-to-right order. -/
theorem spec_c6_counterexample :
    findBibleReferences textC6
      = [{ book := "Matthew", chapter := 5, verse := some 3,
           endVerse := none, display := "Mt 5:3" },
         { book := "Luke", chapter := 6, verse := some 20,
           endVerse := none, display := " Lu 6:20" },
         { book := "Matthew", chapter := 5, verse := some 3,
           endVerse := none, display := "Mt 5:3" },
         { book := "Luke", chapter := 6, verse := some 20,
           endVerse := none, display := "Lu 6:20" }]
    ∧ ((findBibleReferences textC6).map fun r =>
        idxToInt (jsIndexOf textC6.toList r.display.toList))
        = [0, 6, 0, 7]
    ∧ ¬ List.Chain' (fun a b => a ≤ b)
        ((findBibleReferences textC6).map fun r =>
          idxToInt (jsIndexOf textC6.toList r.display.toList)) := by
  refine ⟨by decide, by decide, ?_⟩
  intro h
  have := h
  rw [show ((findBibleReferences textC6).map fun r =>
      idxToInt (jsIndexOf textC6.toList r.display.toList))
      = [(0 : Int), 6, 0, 7] from by decide] at this
  simp [List.chain'_cons] at this

/-- C7 (amended).  With a non-null book hint, the shorthand pass
rewrites every matched bare chapter:verse token to a verse-anchor link
`book chapter#verse`, including the token `3:0` whose verse value `0`
is the sentinel the tests label as no specific verse; no verse value is
special-cased to a chapter-whole link. -/
theorem spec_c7 :
    processFootnoteContent "See 3:0." (some fnC7) = "See [[John 3#0|3:0]]."
    ∧ processFootnoteContent "See 3:7." (some fnC7)
        = "See [[John 3#7|3:7]]." := by
  constructor
  · decide
  · decide

/-- C7 counterexample: the token `3:0` carrying the sentinel verse `0`
is rewritten to the verse anchor `[[John 3#0|3:0]]`, not to the
chapter-whole link `[[John 3|3:0]]` that the claim requires. -/
theorem spec_c7_counterexample :
    processFootnoteContent "See 3:0." (some fnC7) ≠ "See [[John 3|3:0]]." := by
  decide

/-- C8.  `expandBookName` is total and returns unknown codes unchanged;
an explicit tag with the unknown code `Xy` therefore yields an accepted
reference with book `Xy`, while the same code in untagged text is
discarded by the canonical-name check of the fallback path. -/
theorem spec_c8 :
    (∀ code : String, lookupCode bookMap code = none →
        expandBookName code = code)
    ∧ extractVerseReferences noteC8
        = [{ book := "Xy", chapter := 1, verse := some 2,
             endVerse := none, display := "Xy 1:2" }]
    ∧ findBibleReferences "Xy 1:2" = [] := by
  refine ⟨?_, by decide, by decide⟩
  intro code h
  unfold expandBookName
  rw [h]
  rfl

/-- Closed instance of `spec_c8`: the unknown code `Xy` is not in the
table and passes through unchanged. -/
theorem spec_c8_witness :
    lookupCode bookMap "Xy" = none ∧ expandBookName "Xy" = "Xy" :=
  ⟨by decide, spec_c8.1 "Xy" (by decide)⟩

/-- C9.  Without a book hint the shorthand pass is skipped entirely
(steps 1–3 alone produce the output); the id `note_John_3_1` yields the
hint `John`, under which the bare `1:4` links to John chapter 1 verse
4, while with a hintless id the same content is returned untouched. -/
theorem spec_c9 :
    (∀ (content : String) (fn : Option ParsedFootnote),
        extractBookFromFootnote fn = none →
        processFootnoteContent content fn
          = String.mk (steps123 content.toList fn))
    ∧ extractBookFromFootnote (some fnC9) = some "John"
    ∧ processFootnoteContent "See 1:4." (some fnC9)
        = "See [[John 1#4|1:4]]."
    ∧ processFootnoteContent "See 1:4." (some fnC9n) = "See 1:4." := by
  refine ⟨?_, by decide, by decide, by decide⟩
  intro content fn h
  unfold processFootnoteContent
  rw [h]

/-- Closed instance of `spec_c9`: the hintless footnote takes the
no-shorthand path. -/
theorem spec_c9_witness :
    processFootnoteContent "See 1:4." (some fnC9n)
      = String.mk (steps123 "See 1:4.".toList (some fnC9n)) :=
  spec_c9.1 "See 1:4." (some fnC9n) (by decide)

/-- `lookupCode` only returns table entries. -/
theorem lookupCode_mem :
    ∀ (l : List (String × String)) (c v : String),
      lookupCode l c = some v → (c, v) ∈ l := by
  intro l
  induction l with
  | nil => intro c v h; cases h
  | cons p t ih =>
    intro c v h
    obtain ⟨k, w⟩ := p
    rw [lookupCode] at h
    by_cases hk : k = c
    · rw [if_pos hk] at h
      cases h
      subst hk
      exact List.mem_cons_self _ _
    · rw [if_neg hk] at h
      exact List.mem_cons_of_mem _ (ih c v h)

/-- C10.  Every value of the abbreviation table is one of the 66
canonical book names; hence any code the table knows expands to a name
that passes `isValidBookName`, so the canonical-name check of the
fallback path never rejects a candidate whose (trimmed) leading word is
a known abbreviation. -/
theorem spec_c10 :
    (∀ p ∈ bookMap, isValidBookName p.2 = true)
    ∧ ∀ code v : String, lookupCode bookMap code = some v →
        isValidBookName (expandBookName code) = true := by
  have h1 : ∀ p ∈ bookMap, isValidBookName p.2 = true := by decide
  refine ⟨h1, ?_⟩
  intro code v h
  have hmem := lookupCode_mem bookMap code v h
  have hv := h1 (code, v) hmem
  unfold expandBookName
  rw [h]
  exact hv

/-- Closed instance of `spec_c10` at the known code `Mt`. -/
theorem spec_c10_witness :
    lookupCode bookMap "Mt" = some "Matthew"
    ∧ isValidBookName (expandBookName "Mt") = true :=
  ⟨by decide, spec_c10.2 "Mt" "Matthew" (by decide)⟩
